import Mathlib

set_option autoImplicit false

/-!
Shallow embedding of `src/main.py`: a Streamlit inventory tracker for a dairy
parlor, backed by a Google Drive folder. The remote folder is modelled as an
association list from file name to byte content; byte content is modelled as a
list of characters. CSV serialization (`df.to_csv(index=False)`) and parsing
(`pd.read_csv`) are modelled byte-for-byte for cells free of CSV
metacharacters, and the JSON product catalog (`json.dumps` / `json.loads`) is
modelled for flat string-to-string objects. Fallible calls return `Except`:
an `Except.error` stands for a raised Python exception.
-/

namespace GaneshKirti

/-- Byte content of a remote object, modelled as a list of characters. -/
abbrev Bytes := List Char

/-- The double-quote character (written by code point to keep it out of the
surrounding text). -/
def dquote : Char := Char.ofNat 34

/-- The opening-brace character of a JSON object. -/
def lbrace : Char := Char.ofNat 123

/-- The closing-brace character of a JSON object. -/
def rbrace : Char := Char.ofNat 125

/-- Splitting a character list at every occurrence of `sep`; models the line
and field splitting performed by `pd.read_csv`. -/
def splitOnChar (sep : Char) : List Char → List (List Char)
  | [] => [[]]
  | c :: cs =>
    let r := splitOnChar sep cs
    if c = sep then [] :: r else (c :: r.headD []) :: r.tail

/-- Joining fields with a single separator character; models the comma and
newline joining performed by `df.to_csv`. -/
def joinWith (sep : Char) : List (List Char) → List Char
  | [] => []
  | [f] => f
  | f :: fs => f ++ sep :: joinWith sep fs

/-- One serialized CSV line: comma-joined fields followed by the newline
terminator, as `df.to_csv` writes it. -/
def csv_line (fields : List (List Char)) : List Char := joinWith ',' fields ++ ['\n']

/-- A parsed tabular dataset: a header of column names and a list of data
rows. This is the `pandas.DataFrame` at the level of detail the claims need;
every cell is its printed string. -/
structure Table where
  header : List String
  rows : List (List String)
deriving DecidableEq

/-- `pd.DataFrame()`: the empty table. -/
def Table.empty : Table := ⟨[], []⟩

/-- Models `df.to_csv(index=False)`: the header line, then one line per row,
fields comma-separated, every line terminated by a newline. -/
def to_csv (t : Table) : Bytes :=
  csv_line (t.header.map String.toList) ++
    (t.rows.map (fun r => csv_line (r.map String.toList))).flatten

/-- Models `pd.read_csv`: split the bytes into lines, skip blank lines
(`skip_blank_lines=True` default), take the first line as the header; raise
`EmptyDataError` when no line remains. -/
def read_csv (data : Bytes) : Except String Table :=
  match (splitOnChar '\n' data).filter (fun l => !l.isEmpty) with
  | [] => Except.error "EmptyDataError: No columns to parse from file"
  | h :: rest =>
    Except.ok ⟨(splitOnChar ',' h).map String.mk,
      rest.map (fun l => (splitOnChar ',' l).map String.mk)⟩

/-- A cell (or column name) that the CSV layer stores verbatim: nonempty and
free of the separator, terminator, quote and carriage-return characters (for
such cells `df.to_csv` applies no quoting, so the model is byte-faithful). -/
def wfCell (s : String) : Prop :=
  s.toList ≠ [] ∧ ',' ∉ s.toList ∧ '\n' ∉ s.toList ∧
    dquote ∉ s.toList ∧ '\r' ∉ s.toList

instance (s : String) : Decidable (wfCell s) := by
  unfold wfCell
  infer_instance

/-- Tables whose serialized form `pd.read_csv` recovers exactly: at least one
column, every column name and cell well formed, rows matching the header
width. -/
def WfTable (t : Table) : Prop :=
  t.header ≠ [] ∧ (∀ c ∈ t.header, wfCell c) ∧
    (∀ r ∈ t.rows, r.length = t.header.length ∧ ∀ c ∈ r, wfCell c)

instance (t : Table) : Decidable (WfTable t) := by
  unfold WfTable
  infer_instance

/-- The remote Drive folder (`FOLDER_ID`): files as (name, content) pairs in
creation order. -/
structure Store where
  files : List (String × Bytes)
deriving DecidableEq

/-- Content of the first file carrying the given name; models the lookup done
by `get_file_id` (Drive query by name within the folder) followed by a fetch
of that file. -/
def findFile : List (String × Bytes) → String → Option Bytes
  | [], _ => none
  | (n, d) :: fs, name => if n = name then some d else findFile fs name

/-- Content replacement on the first file carrying the given name; models
`drive_service.files().update(fileId=...)`. -/
def replaceFile : List (String × Bytes) → String → Bytes → List (String × Bytes)
  | [], _, _ => []
  | (n, d) :: fs, name, data =>
    if n = name then (n, data) :: fs else (n, d) :: replaceFile fs name data

/-- `upload_file`: when `get_file_id` finds the file, update its content in
place; otherwise create a new file with that name inside the folder. -/
def upload_file (s : Store) (name : String) (data : Bytes) : Store :=
  match findFile s.files name with
  | some _ => ⟨replaceFile s.files name data⟩
  | none => ⟨s.files ++ [(name, data)]⟩

/-- `download_file`: when `get_file_id` finds no file, `None`; otherwise the
file's bytes. -/
def download_file (s : Store) (name : String) : Option Bytes :=
  findFile s.files name

/-- The body of `load_data` as a function of the outcome of the remote
download round trip. `load_data` wraps `download_file` in no `try`, so a
raised remote error (`Except.error`) propagates to the caller; `None` and
empty bytes (the `if data:` test) give `pd.DataFrame()`; any other content is
parsed with `pd.read_csv`. -/
def load_data_from_fetch (fetch : Except String (Option Bytes)) : Except String Table :=
  match fetch with
  | Except.error e => Except.error e
  | Except.ok none => Except.ok Table.empty
  | Except.ok (some data) =>
    if data.isEmpty then Except.ok Table.empty else read_csv data

/-- `load_data` against a store whose download round trip returns normally. -/
def load_data (s : Store) (name : String) : Except String Table :=
  load_data_from_fetch (Except.ok (download_file s name))

/-- `save_data`: serialize the whole table and overwrite the remote object in
one `upload_file` call. -/
def save_data (s : Store) (df : Table) (name : String) : Store :=
  upload_file s name (to_csv df)

/-- `ensure_file_exists`: when `get_file_id` finds nothing, upload the CSV
serialization of an empty `DataFrame` whose columns are `columns`; otherwise
do nothing. -/
def ensure_file_exists (s : Store) (name : String) (columns : List String) : Store :=
  match findFile s.files name with
  | some _ => s
  | none => upload_file s name (to_csv ⟨columns, []⟩)

/-- File names used by the app. -/
def inventory_file : String := "inventory.csv"

def sales_file : String := "sales.csv"

def orders_file : String := "orders.csv"

def products_file : String := "products.json"

/-- Hard-coded default product catalog seeded by `load_products` on first
access. -/
def default_products : List (String × String) :=
  [("Dahi", "kg"), ("Basundi", "ltr"), ("Lassi", "ltr"), ("Pedha", "nos"),
    ("BadamShek", "ltr"), ("GulabJamun", "nos"), ("Paneer", "kg"),
    ("Shrikhand", "kg"), ("Milk", "ltr"), ("Butter", "kg")]

/-- One serialized JSON object member, as `json.dumps` prints it (default
separators, so a colon and one space between key and value). -/
def json_entry (kv : String × String) : List Char :=
  dquote :: kv.1.toList ++ dquote :: ':' :: ' ' :: dquote :: kv.2.toList ++ [dquote]

/-- Joining with a multi-character separator (`json.dumps` separates members
with a comma and one space). -/
def joinSep (sep : List Char) : List (List Char) → List Char
  | [] => []
  | [x] => x
  | x :: xs => x ++ sep ++ joinSep sep xs

/-- Models `json.dumps` on a flat string-to-string dict (insertion order
preserved, as Python dicts do). -/
def json_dumps (d : List (String × String)) : Bytes :=
  lbrace :: joinSep [',', ' '] (d.map json_entry) ++ [rbrace]

/-- Drops leading whitespace, as the JSON decoder does between tokens. -/
def skipSpaces : List Char → List Char
  | [] => []
  | c :: cs => if c.isWhitespace then skipSpaces cs else c :: cs

/-- Consumes one expected character. -/
def expectChar (c : Char) : List Char → Option (List Char)
  | [] => none
  | x :: rest => if x = c then some rest else none

/-- Scans a JSON string body up to its closing quote (escape sequences are
outside the model: no catalog value contains one). -/
def scanString : List Char → Option (List Char × List Char)
  | [] => none
  | c :: rest =>
    if c = dquote then some ([], rest)
    else if c = '\\' then none
    else (scanString rest).map (fun p => (c :: p.1, p.2))

/-- Parses the members of a flat JSON object, fuelled by the input length. -/
def parseMembers : Nat → List Char → Option (List (String × String) × List Char)
  | 0, _ => none
  | fuel + 1, input => do
    let r1 ← expectChar dquote (skipSpaces input)
    let (k, r2) ← scanString r1
    let r3 ← expectChar ':' (skipSpaces r2)
    let r4 ← expectChar dquote (skipSpaces r3)
    let (v, r5) ← scanString r4
    match skipSpaces r5 with
    | c :: r6 =>
      if c = ',' then do
        let (ms, r7) ← parseMembers fuel r6
        some ((String.mk k, String.mk v) :: ms, r7)
      else if c = rbrace then some ([(String.mk k, String.mk v)], r6)
      else none
    | [] => none

/-- Models `json.loads` on a flat string-to-string object; any malformed input
raises `JSONDecodeError`. -/
def json_loads (data : Bytes) : Except String (List (String × String)) :=
  let parsed : Option (List (String × String)) := do
    let r1 ← expectChar lbrace (skipSpaces data)
    match skipSpaces r1 with
    | c :: r2 =>
      if c = rbrace then (if skipSpaces r2 = [] then some [] else none)
      else do
        let (ms, r3) ← parseMembers (data.length + 1) (c :: r2)
        if skipSpaces r3 = [] then some ms else none
    | [] => none
  match parsed with
  | some ms => Except.ok ms
  | none => Except.error "json.decoder.JSONDecodeError: Expecting value"

/-- `save_products`: serialize the catalog dict and overwrite
`products.json`. -/
def save_products (s : Store) (products_dict : List (String × String)) : Store :=
  upload_file s products_file (json_dumps products_dict)

/-- `load_products`: download `products.json`; on content, parse it (a parse
failure raises); on `None` or empty bytes (`if data:`), write the hard-coded
default catalog and return it. -/
def load_products (s : Store) : Except String (List (String × String) × Store) :=
  match download_file s products_file with
  | some data =>
    if data.isEmpty then
      Except.ok (default_products, save_products s default_products)
    else (json_loads data).map (fun p => (p, s))
  | none => Except.ok (default_products, save_products s default_products)

/-- One inventory or sales row as the add forms build it. Dates are abstract
day stamps (`datetime.now().date()` is the ambient `today` argument);
quantities, prices and totals are exact rationals standing in for the Python
floats. -/
structure EntryRow where
  date : Nat
  product : String
  quantity : ℚ
  unit : String
  price : ℚ
  total : ℚ
deriving DecidableEq

/-- One order row: an entry row plus party, advance and status. -/
structure OrderRow where
  date : Nat
  product : String
  quantity : ℚ
  unit : String
  price : ℚ
  total : ℚ
  party : String
  advance : ℚ
  status : String
deriving DecidableEq

/-- Submit handler of `inventory_form`: computes `total = quantity * price`,
builds a single new row stamped with the current date, concatenates it after
the loaded dataframe and saves. The in-memory append is the part the
dataframe-level claims are about. -/
def inventory_form_submit (today : Nat) (product : String) (quantity : ℚ)
    (unit : String) (price : ℚ) (inventory_df : List EntryRow) : List EntryRow :=
  let total := quantity * price
  inventory_df ++ [⟨today, product, quantity, unit, price, total⟩]

/-- Submit handler of `sales_form`, identical in shape to the inventory one. -/
def sales_form_submit (today : Nat) (product : String) (quantity : ℚ)
    (unit : String) (price : ℚ) (sales_df : List EntryRow) : List EntryRow :=
  let total := quantity * price
  sales_df ++ [⟨today, product, quantity, unit, price, total⟩]

/-- Submit handler of `orders_form`: additionally records party and advance
and stamps the new order `Pending`. -/
def orders_form_submit (today : Nat) (product : String) (quantity : ℚ)
    (unit : String) (price : ℚ) (party : String) (advance : ℚ)
    (orders_df : List OrderRow) : List OrderRow :=
  let total := quantity * price
  let status := "Pending"
  orders_df ++ [⟨today, product, quantity, unit, price, total, party, advance, status⟩]

/-- Models one Status-cell edit through the orders grid: `show_aggrid` is
called with `editable_cols=["Status"]`, so Status is the only column the grid
lets the user edit; the grid hands back the dataframe with row `i`'s Status
cell set to the chosen value, and the page saves that dataframe. -/
def grid_status_edit : List OrderRow → Nat → String → List OrderRow
  | [], _, _ => []
  | r :: rs, 0, st => { r with status := st } :: rs
  | r :: rs, i + 1, st => r :: grid_status_edit rs i st

/-- Every field of an order row except Status. -/
def nonStatusFields (r : OrderRow) : Nat × String × ℚ × String × ℚ × ℚ × String × ℚ :=
  (r.date, r.product, r.quantity, r.unit, r.price, r.total, r.party, r.advance)

/-- Outcome reported by the add-product form submit handler: `st.error` for a
blank name, `st.warning` for a duplicate, `st.success` after an insert. -/
inductive SubmitOutcome
  | errorEmptyName
  | warnAlreadyExists
  | successAdded
deriving DecidableEq

/-- Models Python `str.strip()`: drops leading and trailing whitespace. -/
def pyStrip (s : String) : String :=
  String.mk (((s.toList.dropWhile Char.isWhitespace).reverse.dropWhile
    Char.isWhitespace).reverse)

/-- Submit handler of `add_product_form`: rejects names that strip to empty,
then exact (case-sensitive) duplicates, and otherwise inserts the new mapping
at the end of the dict and saves the catalog. -/
def add_product_submit (s : Store) (products : List (String × String))
    (new_product new_unit : String) :
    SubmitOutcome × List (String × String) × Store :=
  if pyStrip new_product = "" then (SubmitOutcome.errorEmptyName, products, s)
  else if (products.lookup new_product).isSome then
    (SubmitOutcome.warnAlreadyExists, products, s)
  else
    let products' := products ++ [(new_product, new_unit)]
    (SubmitOutcome.successAdded, products', save_products s products')

deriving instance DecidableEq for Except

/-! Helper lemmas about the CSV layer. -/

theorem splitOnChar_ne_nil (sep : Char) (l : List Char) : splitOnChar sep l ≠ [] := by
  cases l with
  | nil => simp [splitOnChar]
  | cons c cs =>
    simp only [splitOnChar]
    split <;> simp

theorem splitOnChar_not_mem (sep : Char) (f : List Char) (hf : sep ∉ f) :
    splitOnChar sep f = [f] := by
  induction f with
  | nil => rfl
  | cons c cs ih =>
    have hc : c ≠ sep := fun h => hf (by simp [h])
    have hcs : sep ∉ cs := fun h => hf (List.mem_cons_of_mem _ h)
    simp only [splitOnChar, ih hcs, if_neg hc]
    rfl

theorem splitOnChar_append_cons (sep : Char) (f rest : List Char) (hf : sep ∉ f) :
    splitOnChar sep (f ++ sep :: rest) = f :: splitOnChar sep rest := by
  induction f with
  | nil =>
    simp [splitOnChar]
  | cons c cs ih =>
    have hc : c ≠ sep := fun h => hf (by simp [h])
    have hcs : sep ∉ cs := fun h => hf (List.mem_cons_of_mem _ h)
    simp only [List.cons_append, splitOnChar, List.append_eq, ih hcs, if_neg hc]
    rfl

theorem splitOnChar_joinWith (sep : Char) (fields : List (List Char)) (h : fields ≠ [])
    (hf : ∀ f ∈ fields, sep ∉ f) : splitOnChar sep (joinWith sep fields) = fields := by
  induction fields with
  | nil => exact absurd rfl h
  | cons f fs ih =>
    cases fs with
    | nil => exact splitOnChar_not_mem sep f (hf f (by simp))
    | cons f2 fs2 =>
      have hstep : joinWith sep (f :: f2 :: fs2) = f ++ sep :: joinWith sep (f2 :: fs2) := rfl
      rw [hstep, splitOnChar_append_cons sep f _ (hf f (by simp)),
        ih (by simp) (fun g hg => hf g (List.mem_cons_of_mem _ hg))]

theorem joinWith_ne_nil (sep : Char) (fields : List (List Char)) (h : fields ≠ [])
    (hf : ∀ f ∈ fields, f ≠ []) : joinWith sep fields ≠ [] := by
  cases fields with
  | nil => exact absurd rfl h
  | cons f fs =>
    cases fs with
    | nil => exact hf f (by simp)
    | cons f2 fs2 => simp [joinWith]

theorem not_mem_joinWith (sep c : Char) (hc : c ≠ sep) (fields : List (List Char))
    (hf : ∀ f ∈ fields, c ∉ f) : c ∉ joinWith sep fields := by
  induction fields with
  | nil => simp [joinWith]
  | cons f fs ih =>
    cases fs with
    | nil => exact hf f (by simp)
    | cons f2 fs2 =>
      have hstep : joinWith sep (f :: f2 :: fs2) = f ++ sep :: joinWith sep (f2 :: fs2) := rfl
      rw [hstep]
      intro hmem
      rcases List.mem_append.mp hmem with h1 | h1
      · exact hf f (by simp) h1
      · rcases List.mem_cons.mp h1 with h2 | h2
        · exact hc h2
        · exact ih (fun g hg => hf g (List.mem_cons_of_mem _ hg)) h2

theorem splitOnChar_newline_csv (fieldss : List (List (List Char)))
    (h : ∀ fs ∈ fieldss, '\n' ∉ joinWith ',' fs) :
    splitOnChar '\n' ((fieldss.map csv_line).flatten) =
      fieldss.map (fun fs => joinWith ',' fs) ++ [[]] := by
  induction fieldss with
  | nil => simp [splitOnChar]
  | cons fs fss ih =>
    simp only [List.map_cons, List.flatten_cons, csv_line, List.append_assoc,
      List.singleton_append]
    rw [splitOnChar_append_cons _ _ _ (h fs (by simp)),
      ih (fun g hg => h g (List.mem_cons_of_mem _ hg))]
    simp

theorem string_mk_toList (s : String) : String.mk s.toList = s := rfl

theorem map_mk_toList (fs : List String) : (fs.map String.toList).map String.mk = fs := by
  rw [List.map_map]
  calc fs.map (String.mk ∘ String.toList)
      = fs.map id := List.map_congr_left (fun c _ => string_mk_toList c)
    _ = fs := List.map_id fs

theorem splitField_joinField (fs : List String) (hfs : fs ≠ [])
    (hwf : ∀ c ∈ fs, wfCell c) :
    (splitOnChar ',' (joinWith ',' (fs.map String.toList))).map String.mk = fs := by
  rw [splitOnChar_joinWith ',' _ (by simpa using hfs) ?_]
  · exact map_mk_toList fs
  · intro f hf
    rcases List.mem_map.mp hf with ⟨c, hc, rfl⟩
    exact (hwf c hc).2.1

theorem read_csv_to_csv (t : Table) (h : WfTable t) : read_csv (to_csv t) = Except.ok t := by
  obtain ⟨th, tr⟩ := t
  obtain ⟨hne, hhead, hrows⟩ := h
  simp only at hne hhead hrows
  have hrne : ∀ r ∈ tr, r ≠ [] := by
    intro r hr hcon
    have := (hrows r hr).1
    rw [hcon] at this
    simp at this
    exact hne (List.length_eq_zero.mp this.symm)
  have hlines : to_csv ⟨th, tr⟩ =
      (((th.map String.toList) :: tr.map (fun r => r.map String.toList)).map
        csv_line).flatten := by
    simp only [to_csv, List.map_cons, List.flatten_cons, List.map_map]
    rfl
  have hnonl : ∀ fs ∈ (th.map String.toList) :: tr.map (fun r => r.map String.toList),
      '\n' ∉ joinWith ',' fs := by
    intro fs hfs
    rcases List.mem_cons.mp hfs with hfs | hfs
    · subst hfs
      refine not_mem_joinWith ',' '\n' (by decide) _ ?_
      intro f hf
      rcases List.mem_map.mp hf with ⟨c, hc, rfl⟩
      exact (hhead c hc).2.2.1
    · rcases List.mem_map.mp hfs with ⟨r, hr, rfl⟩
      refine not_mem_joinWith ',' '\n' (by decide) _ ?_
      intro f hf
      rcases List.mem_map.mp hf with ⟨c, hc, rfl⟩
      exact ((hrows r hr).2 c hc).2.2.1
  have hsplit : splitOnChar '\n' (to_csv ⟨th, tr⟩) =
      ((th.map String.toList) :: tr.map (fun r => r.map String.toList)).map
        (fun fs => joinWith ',' fs) ++ [[]] := by
    rw [hlines]
    exact splitOnChar_newline_csv _ hnonl
  have hkeep : ∀ l ∈ ((th.map String.toList) :: tr.map (fun r => r.map String.toList)).map
      (fun fs => joinWith ',' fs), (!l.isEmpty) = true := by
    intro l hl
    rcases List.mem_map.mp hl with ⟨fs, hfs, rfl⟩
    have hjoin : joinWith ',' fs ≠ [] := by
      rcases List.mem_cons.mp hfs with hfs | hfs
      · subst hfs
        refine joinWith_ne_nil ',' _ (by simpa using hne) ?_
        intro f hf
        rcases List.mem_map.mp hf with ⟨c, hc, rfl⟩
        exact (hhead c hc).1
      · rcases List.mem_map.mp hfs with ⟨r, hr, rfl⟩
        refine joinWith_ne_nil ',' _ (by simpa using hrne r hr) ?_
        intro f hf
        rcases List.mem_map.mp hf with ⟨c, hc, rfl⟩
        exact ((hrows r hr).2 c hc).1
    simpa [List.isEmpty_iff] using hjoin
  have hfilter : ((splitOnChar '\n' (to_csv ⟨th, tr⟩)).filter (fun l => !l.isEmpty)) =
      joinWith ',' (th.map String.toList) ::
        (tr.map (fun r => r.map String.toList)).map (fun fs => joinWith ',' fs) := by
    rw [hsplit, List.filter_append, List.filter_eq_self.mpr hkeep]
    simp
  rw [read_csv, hfilter]
  simp only [Except.ok.injEq, Table.mk.injEq]
  constructor
  · exact splitField_joinField th hne hhead
  · rw [List.map_map, List.map_map]
    calc tr.map (((fun l => (splitOnChar ',' l).map String.mk) ∘
          (fun fs => joinWith ',' fs)) ∘ (fun r => r.map String.toList))
        = tr.map id := by
          refine List.map_congr_left ?_
          intro r hr
          exact splitField_joinField r (hrne r hr) (fun c hc => (hrows r hr).2 c hc)
      _ = tr := List.map_id tr

theorem to_csv_ne_nil (t : Table) : to_csv t ≠ [] := by
  simp [to_csv, csv_line]

/-! Helper lemmas about the store layer. -/

theorem findFile_append_absent (fs : List (String × Bytes)) (name : String) (d : Bytes)
    (h : findFile fs name = none) : findFile (fs ++ [(name, d)]) name = some d := by
  induction fs with
  | nil => simp [findFile]
  | cons f fs ih =>
    obtain ⟨n, b⟩ := f
    by_cases hn : n = name
    · simp [findFile, hn] at h
    · simp only [findFile, if_neg hn] at h ⊢
      exact ih h

theorem findFile_replaceFile (fs : List (String × Bytes)) (name : String) (d b : Bytes)
    (h : findFile fs name = some b) : findFile (replaceFile fs name d) name = some d := by
  induction fs with
  | nil => simp [findFile] at h
  | cons f fs ih =>
    obtain ⟨n, b2⟩ := f
    by_cases hn : n = name
    · simp [replaceFile, findFile, hn]
    · simp only [findFile, replaceFile, if_neg hn] at h ⊢
      exact ih h

theorem download_file_upload_file (s : Store) (name : String) (d : Bytes) :
    download_file (upload_file s name d) name = some d := by
  unfold download_file upload_file
  cases hfind : findFile s.files name with
  | none => exact findFile_append_absent s.files name d hfind
  | some b => exact findFile_replaceFile s.files name d b hfind

theorem ensure_file_exists_of_present (s : Store) (name : String) (columns : List String)
    (b : Bytes) (h : findFile s.files name = some b) :
    ensure_file_exists s name columns = s := by
  simp [ensure_file_exists, h]

theorem ensure_file_exists_of_absent (s : Store) (name : String) (columns : List String)
    (h : findFile s.files name = none) :
    ensure_file_exists s name columns = upload_file s name (to_csv ⟨columns, []⟩) := by
  simp [ensure_file_exists, h]

theorem ensure_file_exists_ensure_file_exists (s : Store) (name : String)
    (columns : List String) :
    ensure_file_exists (ensure_file_exists s name columns) name columns =
      ensure_file_exists s name columns := by
  cases hfind : findFile s.files name with
  | some b =>
    rw [ensure_file_exists_of_present s name columns b hfind,
      ensure_file_exists_of_present s name columns b hfind]
  | none =>
    rw [ensure_file_exists_of_absent s name columns hfind]
    exact ensure_file_exists_of_present _ name columns _
      (download_file_upload_file s name (to_csv ⟨columns, []⟩))

theorem ensure_file_exists_iterate (s : Store) (name : String) (columns : List String)
    (n : Nat) :
    (fun st => ensure_file_exists st name columns)^[n + 1] s =
      ensure_file_exists s name columns := by
  induction n with
  | zero => simp
  | succ m ih =>
    rw [Function.iterate_succ_apply']
    simp only [ih]
    exact ensure_file_exists_ensure_file_exists s name columns

/-! Helper lemmas about the catalog layer. -/

theorem load_products_of_absent (s : Store) (h : download_file s products_file = none) :
    load_products s = Except.ok (default_products, save_products s default_products) := by
  unfold load_products
  rw [h]

theorem load_products_of_download (s : Store) (data : Bytes)
    (h : download_file s products_file = some data) (hne : data.isEmpty = false) :
    load_products s = (json_loads data).map (fun p => (p, s)) := by
  unfold load_products
  rw [h]
  simp [hne]

set_option maxRecDepth 10000 in
theorem json_loads_json_dumps_default :
    json_loads (json_dumps default_products) = Except.ok default_products := by
  decide

/-! Helper lemmas about the dataframe layer. -/

theorem grid_status_edit_length (df : List OrderRow) (i : Nat) (st : String) :
    (grid_status_edit df i st).length = df.length := by
  induction df generalizing i with
  | nil => rfl
  | cons r rs ih =>
    cases i with
    | zero => simp [grid_status_edit]
    | succ j => simp [grid_status_edit, ih j]

theorem grid_status_edit_getElem? (df : List OrderRow) (i : Nat) (st : String) (j : Nat) :
    (grid_status_edit df i st)[j]? =
      if j = i then (df[j]?).map (fun r => { r with status := st }) else df[j]? := by
  induction df generalizing i j with
  | nil => simp [grid_status_edit]
  | cons r rs ih =>
    cases i with
    | zero =>
      cases j with
      | zero => simp [grid_status_edit]
      | succ j2 => simp [grid_status_edit]
    | succ i2 =>
      cases j with
      | zero => simp [grid_status_edit]
      | succ j2 => simpa [grid_status_edit] using ih i2 j2

theorem grid_status_edit_nonStatus (df : List OrderRow) (i : Nat) (st : String) (j : Nat) :
    ((grid_status_edit df i st)[j]?).map nonStatusFields = (df[j]?).map nonStatusFields := by
  rw [grid_status_edit_getElem?]
  by_cases hj : j = i
  · simp only [if_pos hj, Option.map_map]
    cases df[j]? <;> simp [nonStatusFields]
  · rw [if_neg hj]

/-! The claims. -/

/-- Claim C1: every entry accepted by one of the three add forms (inventory,
sales, orders) is appended as a row whose Total field is exactly
`quantity * price`, recomputed at write time — the submit handlers take no
independent Total input, so exactness subsumes the 1e-9 tolerance. -/
theorem add_forms_total_recomputed (today : Nat) (product unit party : String)
    (quantity price advance : ℚ) (inv sal : List EntryRow) (ord : List OrderRow) :
    inventory_form_submit today product quantity unit price inv =
      inv ++ [⟨today, product, quantity, unit, price, quantity * price⟩] ∧
    sales_form_submit today product quantity unit price sal =
      sal ++ [⟨today, product, quantity, unit, price, quantity * price⟩] ∧
    orders_form_submit today product quantity unit price party advance ord =
      ord ++ [⟨today, product, quantity, unit, price, quantity * price,
        party, advance, "Pending"⟩] ∧
    |quantity * price - quantity * price| ≤ 1 / 1000000000 := by
  refine ⟨rfl, rfl, rfl, ?_⟩
  simp

/-- Claim C2: `ensure_file_exists` is idempotent — any `N ≥ 1` calls leave the
same remote content as one call; on an absent object it creates an empty table
whose header is exactly the given columns; on a present object it changes
nothing (and raises no error, being a total function). -/
theorem ensure_file_exists_idempotent (s : Store) (name : String) (columns : List String) :
    (∀ n : Nat, 1 ≤ n →
      (fun st => ensure_file_exists st name columns)^[n] s =
        ensure_file_exists s name columns) ∧
    (download_file s name = none → columns ≠ [] → (∀ c ∈ columns, wfCell c) →
      load_data (ensure_file_exists s name columns) name =
        Except.ok ⟨columns, []⟩) ∧
    (∀ b : Bytes, download_file s name = some b →
      ensure_file_exists s name columns = s) := by
  refine ⟨?_, ?_, ?_⟩
  · intro n hn
    obtain ⟨m, rfl⟩ := Nat.exists_eq_add_of_le hn
    rw [Nat.add_comm]
    exact ensure_file_exists_iterate s name columns m
  · intro habs hcolsne hwf
    rw [ensure_file_exists_of_absent s name columns habs]
    unfold load_data
    rw [download_file_upload_file s name (to_csv ⟨columns, []⟩)]
    simp only [load_data_from_fetch]
    rw [if_neg (by simpa [List.isEmpty_iff] using to_csv_ne_nil ⟨columns, []⟩)]
    exact read_csv_to_csv ⟨columns, []⟩ ⟨hcolsne, hwf, by simp⟩
  · intro b hb
    exact ensure_file_exists_of_present s name columns b hb

/-- Claim C2 witness: three calls on an initially absent `inventory.csv`
equal one call, and that call creates the empty two-column table. -/
theorem ensure_file_exists_idempotent_witness :
    ((fun st => ensure_file_exists st "inventory.csv" ["Date", "Product"])^[3] ⟨[]⟩ =
      ensure_file_exists ⟨[]⟩ "inventory.csv" ["Date", "Product"]) ∧
    load_data (ensure_file_exists ⟨[]⟩ "inventory.csv" ["Date", "Product"])
      "inventory.csv" = Except.ok ⟨["Date", "Product"], []⟩ :=
  ⟨(ensure_file_exists_idempotent ⟨[]⟩ "inventory.csv" ["Date", "Product"]).1 3
      (by decide),
    (ensure_file_exists_idempotent ⟨[]⟩ "inventory.csv" ["Date", "Product"]).2.1 rfl
      (by decide) (by decide)⟩

/-- Claim C3: round-trip law — `save_data` followed by `load_data` on the
same name returns the table unchanged, with column order and row order
preserved, for every table whose cells are free of CSV metacharacters. -/
theorem round_trip_law (s : Store) (t : Table) (name : String) (h : WfTable t) :
    load_data (save_data s t name) name = Except.ok t := by
  unfold save_data load_data
  rw [download_file_upload_file s name (to_csv t)]
  simp only [load_data_from_fetch]
  rw [if_neg (by simpa [List.isEmpty_iff] using to_csv_ne_nil t)]
  exact read_csv_to_csv t h

/-- Claim C3 witness: a concrete one-row orders table survives the round trip
through a previously empty store. -/
theorem round_trip_law_witness :
    WfTable ⟨["Date", "Product"], [["2024-01-01", "Milk"]]⟩ ∧
    load_data (save_data ⟨[]⟩ ⟨["Date", "Product"], [["2024-01-01", "Milk"]]⟩
        "inventory.csv") "inventory.csv" =
      Except.ok ⟨["Date", "Product"], [["2024-01-01", "Milk"]]⟩ :=
  ⟨by decide,
    round_trip_law ⟨[]⟩ ⟨["Date", "Product"], [["2024-01-01", "Milk"]]⟩
      "inventory.csv" (by decide)⟩

/-- Claim C4 counterexample: when the remote fetch fails (the Drive client
raises, here with a representative HTTP 503 error), `load_data` does not
return an empty table — there is no `try` around `download_file`, so the
error propagates to the caller. -/
theorem load_data_fetch_error_propagates :
    load_data_from_fetch (Except.error "HttpError 503") ≠ Except.ok Table.empty ∧
    load_data_from_fetch (Except.error "HttpError 503") = Except.error "HttpError 503" := by
  refine ⟨?_, rfl⟩
  intro h
  exact Except.noConfusion h

/-- Claim C4 (amended): `load_data` returns an empty table, raising nothing,
when the remote object is absent (and likewise when its stored content is
empty), so callers cannot tell empty from absent; any other fetch failure is
not collapsed but propagates as an exception. -/
theorem load_data_absent_gives_empty (s : Store) (name : String)
    (h : download_file s name = none) :
    load_data s name = Except.ok Table.empty ∧
    load_data_from_fetch (Except.ok (some [])) = Except.ok Table.empty ∧
    (∀ e : String, load_data_from_fetch (Except.error e) = Except.error e) := by
  refine ⟨?_, rfl, fun e => rfl⟩
  rw [load_data, h]
  rfl

/-- Claim C4 witness: on an empty store every dataset loads as the empty
table. -/
theorem load_data_absent_gives_empty_witness :
    load_data ⟨[]⟩ "orders.csv" = Except.ok Table.empty :=
  (load_data_absent_gives_empty ⟨[]⟩ "orders.csv" rfl).1

/-- Claim C5: a Status-only edit of one order row through the update path
(the grid with `editable_cols=["Status"]`, whose result the page saves)
keeps the length and every non-Status field of every row identical, and sets
exactly the edited row's Status. -/
theorem status_edit_law (df : List OrderRow) (i : Nat) (st : String) :
    (grid_status_edit df i st).length = df.length ∧
    (∀ j : Nat, ((grid_status_edit df i st)[j]?).map nonStatusFields =
      (df[j]?).map nonStatusFields) ∧
    ((grid_status_edit df i st)[i]?).map OrderRow.status = (df[i]?).map (fun _ => st) := by
  refine ⟨grid_status_edit_length df i st, grid_status_edit_nonStatus df i st, ?_⟩
  rw [grid_status_edit_getElem?, if_pos rfl, Option.map_map]
  cases df[i]? <;> rfl

/-- Claim C6: under every operation the app offers — the three add forms and
the order-status edit — no row is deleted: the adds keep the prior rows as an
unchanged prefix and append exactly one row, and the status edit keeps the
length and all non-Status fields of every row. -/
theorem append_only_invariant (today : Nat) (product unit party newStatus : String)
    (quantity price advance : ℚ) (inv sal : List EntryRow) (ord : List OrderRow)
    (i : Nat) :
    ((inventory_form_submit today product quantity unit price inv).take inv.length = inv ∧
      (inventory_form_submit today product quantity unit price inv).length =
        inv.length + 1) ∧
    ((sales_form_submit today product quantity unit price sal).take sal.length = sal ∧
      (sales_form_submit today product quantity unit price sal).length =
        sal.length + 1) ∧
    ((orders_form_submit today product quantity unit price party advance ord).take
        ord.length = ord ∧
      (orders_form_submit today product quantity unit price party advance ord).length =
        ord.length + 1) ∧
    ((grid_status_edit ord i newStatus).length = ord.length ∧
      ∀ j : Nat, ((grid_status_edit ord i newStatus)[j]?).map nonStatusFields =
        (ord[j]?).map nonStatusFields) := by
  refine ⟨⟨?_, ?_⟩, ⟨?_, ?_⟩, ⟨?_, ?_⟩,
    grid_status_edit_length ord i newStatus, grid_status_edit_nonStatus ord i newStatus⟩
  · exact List.take_left inv _
  · simp [inventory_form_submit]
  · exact List.take_left sal _
  · simp [sales_form_submit]
  · exact List.take_left ord _
  · simp [orders_form_submit]

/-- Claim C7: on a store with no catalog object, `load_products` returns the
ten hard-coded defaults and persists them in the same call, and an
independent second `load_products` reads the persisted seed back (it parses
the stored JSON rather than regenerating). -/
theorem load_products_seeds (s : Store) (h : download_file s products_file = none) :
    default_products.length = 10 ∧
    load_products s = Except.ok (default_products, save_products s default_products) ∧
    download_file (save_products s default_products) products_file =
      some (json_dumps default_products) ∧
    load_products (save_products s default_products) =
      Except.ok (default_products, save_products s default_products) := by
  refine ⟨rfl, ?_, ?_, ?_⟩
  · exact load_products_of_absent s h
  · exact download_file_upload_file s products_file (json_dumps default_products)
  · unfold save_products
    rw [load_products_of_download _ _
        (download_file_upload_file s products_file (json_dumps default_products))
        (by decide),
      json_loads_json_dumps_default]
    rfl

/-- Claim C7 witness: seeding from the empty store. -/
theorem load_products_seeds_witness :
    load_products ⟨[]⟩ =
      Except.ok (default_products, save_products ⟨[]⟩ default_products) ∧
    load_products (save_products ⟨[]⟩ default_products) =
      Except.ok (default_products, save_products ⟨[]⟩ default_products) :=
  ⟨(load_products_seeds ⟨[]⟩ rfl).2.1, (load_products_seeds ⟨[]⟩ rfl).2.2.2⟩

/-- Claim C8 counterexample: the claim quantifies over every catalog state,
but for a catalog holding the whitespace key given again as the new name, the
handler reports the empty-name error, not the already-exists condition (the
blank-name check runs first) — the catalog is still left unchanged. -/
theorem duplicate_product_claim_fails :
    (([(" ", "kg")] : List (String × String)).lookup " ").isSome = true ∧
    (add_product_submit ⟨[]⟩ [(" ", "kg")] " " "ltr").1 ≠
      SubmitOutcome.warnAlreadyExists ∧
    (add_product_submit ⟨[]⟩ [(" ", "kg")] " " "ltr").1 =
      SubmitOutcome.errorEmptyName := by
  decide

/-- Claim C8 (amended): for every catalog state and submitted name that
already exists as a case-sensitive exact match and does not strip to
whitespace, the handler reports the distinct already-exists condition and
writes nothing — catalog and store are unchanged, the existing unit kept. -/
theorem duplicate_product_rejected (s : Store) (products : List (String × String))
    (name unit : String) (hname : pyStrip name ≠ "")
    (hdup : (products.lookup name).isSome = true) :
    add_product_submit s products name unit =
      (SubmitOutcome.warnAlreadyExists, products, s) ∧
    SubmitOutcome.warnAlreadyExists ≠ SubmitOutcome.successAdded := by
  refine ⟨?_, by decide⟩
  rw [add_product_submit, if_neg hname, if_pos hdup]

/-- Claim C8 witness: re-adding "Milk" to a catalog that has it. -/
theorem duplicate_product_rejected_witness :
    add_product_submit ⟨[]⟩ [("Milk", "ltr")] "Milk" "kg" =
      (SubmitOutcome.warnAlreadyExists, [("Milk", "ltr")], ⟨[]⟩) :=
  (duplicate_product_rejected ⟨[]⟩ [("Milk", "ltr")] "Milk" "kg" (by decide)
    (by decide)).1

/-- Claim C9: a submitted product name that is empty or whitespace-only is
rejected with the empty-name error, distinct from the already-exists
condition, and neither catalog nor store is written. -/
theorem empty_name_rejected (s : Store) (products : List (String × String))
    (name unit : String) (h : pyStrip name = "") :
    add_product_submit s products name unit =
      (SubmitOutcome.errorEmptyName, products, s) ∧
    SubmitOutcome.errorEmptyName ≠ SubmitOutcome.warnAlreadyExists := by
  refine ⟨?_, by decide⟩
  rw [add_product_submit, if_pos h]

/-- Claim C9 witness: a whitespace-only name against the default catalog. -/
theorem empty_name_rejected_witness :
    add_product_submit ⟨[]⟩ default_products "  " "kg" =
      (SubmitOutcome.errorEmptyName, default_products, ⟨[]⟩) :=
  (empty_name_rejected ⟨[]⟩ default_products "  " "kg" (by decide)).1

/-- Claim C10: every row appended by the three add forms carries the current
date at submission time — the handlers stamp the ambient clock value and take
no user-supplied date, so entries cannot be backdated or postdated. -/
theorem add_forms_date_stamped (today : Nat) (product unit party : String)
    (quantity price advance : ℚ) (inv sal : List EntryRow) (ord : List OrderRow) :
    ((inventory_form_submit today product quantity unit price inv).getLast?).map
        EntryRow.date = some today ∧
    ((sales_form_submit today product quantity unit price sal).getLast?).map
        EntryRow.date = some today ∧
    ((orders_form_submit today product quantity unit price party advance ord).getLast?).map
        OrderRow.date = some today := by
  refine ⟨?_, ?_, ?_⟩ <;>
    simp [inventory_form_submit, sales_form_submit, orders_form_submit,
      List.getLast?_append_cons]

end GaneshKirti
